import Mathlib

/-!
Verification of the EventBus and PerformanceMonitor modules of the
Portfolio repository, shallowly embedded in Lean 4.

Handlers are modelled by natural-number identifiers; a behaviour
function `beh : Nat → Nat → Option String` tells, for a handler id and a
payload, whether the handler raises an error (`some msg`) or returns
normally (`none`).  The JavaScript `Set` registries become
insertion-ordered duplicate-free lists: `Set.add` is `addUnique`,
`Set.delete` is a filter.  A `Map` from event names becomes a function
`String → List Nat` (an absent key and a key mapped to the empty set are
observationally identical in the source).
-/

/-- Registries of the EventBus: persistent listeners and fire-once
listeners, per event name. -/
structure EventBus where
  listeners : String → List Nat
  onceListeners : String → List Nat

/-- The freshly constructed bus: both registries empty. -/
def EventBus.empty : EventBus := ⟨fun _ => [], fun _ => []⟩

/-- JavaScript `Set.add` on an insertion-ordered list: appends the
element unless it is already present. -/
def addUnique (l : List Nat) (h : Nat) : List Nat :=
  if h ∈ l then l else l ++ [h]

/-- Models `EventBus.on(event, callback)`: adds the callback to the
persistent registry for the event.  The returned unsubscribe closure is
`fun _ => off event callback`, modelled by `EventBus.off` below. -/
def EventBus.on (b : EventBus) (e : String) (h : Nat) : EventBus :=
  { b with listeners := fun x => if x = e then addUnique (b.listeners x) h else b.listeners x }

/-- Models `EventBus.once(event, callback)`: adds the callback to the
fire-once registry for the event. -/
def EventBus.once (b : EventBus) (e : String) (h : Nat) : EventBus :=
  { b with onceListeners := fun x => if x = e then addUnique (b.onceListeners x) h else b.onceListeners x }

/-- Models `EventBus.off(event, callback)`: deletes the callback from
both the persistent and the fire-once registry for the event. -/
def EventBus.off (b : EventBus) (e : String) (h : Nat) : EventBus :=
  { listeners := fun x => if x = e then (b.listeners x).filter (fun y => y != h) else b.listeners x
    onceListeners := fun x => if x = e then (b.onceListeners x).filter (fun y => y != h) else b.onceListeners x }

/-- Invokes each handler of the list in order on the payload; a handler
whose behaviour is `some err` has its error caught and logged (message
prefix `p`), and iteration continues.  Returns the invocation trace and
the log. -/
def runHandlers (beh : Nat → Nat → Option String) (p : String) (d : Nat) :
    List Nat → List Nat × List String
  | [] => ([], [])
  | h :: hs =>
      let rest := runHandlers beh p d hs
      match beh h d with
      | some err => (h :: rest.1, (p ++ err) :: rest.2)
      | none => (h :: rest.1, rest.2)

/-- Result of `emit`: the updated bus, the trace of handler invocations
in order, and the console log. -/
structure EmitResult where
  bus : EventBus
  trace : List Nat
  logs : List String

/-- Models `EventBus.emit(event, data)`: fires every persistent
listener, then every fire-once listener, each inside a try/catch that
logs and continues; finally the fire-once entry for the event is
deleted. -/
def EventBus.emit (b : EventBus) (beh : Nat → Nat → Option String) (e : String) (d : Nat) :
    EmitResult :=
  let r1 := runHandlers beh ("Error in event listener for " ++ e ++ ": ") d (b.listeners e)
  let r2 := runHandlers beh ("Error in once listener for " ++ e ++ ": ") d (b.onceListeners e)
  { bus := { listeners := b.listeners
             onceListeners := fun x => if x = e then [] else b.onceListeners x }
    trace := r1.1 ++ r2.1
    logs := r1.2 ++ r2.2 }

/-- Models `EventBus.clear(event)`: removes every listener for the
event. -/
def EventBus.clear (b : EventBus) (e : String) : EventBus :=
  { listeners := fun x => if x = e then [] else b.listeners x
    onceListeners := fun x => if x = e then [] else b.onceListeners x }

/-- Models `EventBus.clearAll()`: removes every listener. -/
def EventBus.clearAll (_ : EventBus) : EventBus := EventBus.empty

/-- Models `EventBus.listenerCount(event)`: size of the persistent
registry plus size of the fire-once registry for the event (0 for an
absent entry). -/
def EventBus.listenerCount (b : EventBus) (e : String) : Nat :=
  (b.listeners e).length + (b.onceListeners e).length

/-- One API call on the bus, for reasoning about call sequences. -/
inductive BusOp where
  | sub (e : String) (h : Nat)
  | subOnce (e : String) (h : Nat)
  | unsub (e : String) (h : Nat)
  | pub (e : String) (d : Nat)
  | clearEvt (e : String)
  | clearEvery

/-- Executes one call; `emit` contributes its invocations, tagged with
the event name, to the trace. -/
def execOp (beh : Nat → Nat → Option String) (b : EventBus) :
    BusOp → EventBus × List (String × Nat) × List String
  | BusOp.sub e h => (b.on e h, [], [])
  | BusOp.subOnce e h => (b.once e h, [], [])
  | BusOp.unsub e h => (b.off e h, [], [])
  | BusOp.pub e d =>
      let r := b.emit beh e d
      (r.bus, r.trace.map (fun h => (e, h)), r.logs)
  | BusOp.clearEvt e => (b.clear e, [], [])
  | BusOp.clearEvery => (b.clearAll, [], [])

/-- Executes a sequence of calls, accumulating the invocation trace and
the log. -/
def execOps (beh : Nat → Nat → Option String) (b : EventBus) :
    List BusOp → EventBus × List (String × Nat) × List String
  | [] => (b, [], [])
  | op :: ops =>
      let r := execOp beh b op
      let rest := execOps beh r.1 ops
      (rest.1, r.2.1 ++ rest.2.1, r.2.2 ++ rest.2.2)

/-- The call registers handler `h` for event `e` (via `on` or `once`). -/
def registersFor (e : String) (h : Nat) : BusOp → Prop
  | BusOp.sub e2 h2 => e2 = e ∧ h2 = h
  | BusOp.subOnce e2 h2 => e2 = e ∧ h2 = h
  | _ => False

/-- Bus obtained by registering the same handler 7 twice under the same
event name, as in claim C6. -/
def busWithDuplicate : EventBus := (EventBus.empty.on "evt" 7).on "evt" 7

/-- Spec-level ledger of live registrations for one event name, read off
the call history alone (following the specification text): a persistent
registration is live from `subscribe` until it is unsubscribed or
cleared; a fire-once registration is live from `subscribeOnce` until it
is unsubscribed, cleared, or consumed by the first emission of the
event. -/
def liveStep (e : String) (pq : List Nat × List Nat) : BusOp → List Nat × List Nat
  | BusOp.sub e2 h => if e = e2 then (addUnique pq.1 h, pq.2) else pq
  | BusOp.subOnce e2 h => if e = e2 then (pq.1, addUnique pq.2 h) else pq
  | BusOp.unsub e2 h =>
      if e = e2 then (pq.1.filter (fun y => y != h), pq.2.filter (fun y => y != h)) else pq
  | BusOp.pub e2 _ => if e = e2 then (pq.1, []) else pq
  | BusOp.clearEvt e2 => if e = e2 then ([], []) else pq
  | BusOp.clearEvery => ([], [])

/-- The live persistent and fire-once registrations of an event after a
call history, starting from an empty bus. -/
def liveRegs (e : String) (ops : List BusOp) : List Nat × List Nat :=
  ops.foldl (liveStep e) ([], [])

/-!
PerformanceMonitor embedding.  Wall-clock instants and frame times
(JavaScript floating-point milliseconds) are modelled as rationals; the
quality level is the string field `currentQuality` exactly as in the
source.  Emitted bus events and console output are returned explicitly.
-/

/-- One entry of the `qualityLevels` table.  The field `pixelDensity`
models the `pixelRatio` entry of the source. -/
structure QualitySettings where
  pixelDensity : Rat
  shadows : Bool
  particles : Nat
  antialiasing : Bool
deriving DecidableEq, Repr

/-- The own properties of the `qualityLevels` object literal: the three
recognized levels and their parameter bundles; any other key is not an
own property. -/
def qualityLevels (q : String) : Option QualitySettings :=
  if q = "HIGH" then some ⟨2, true, 1000, true⟩
  else if q = "MEDIUM" then some ⟨3/2, true, 500, true⟩
  else if q = "LOW" then some ⟨1, false, 200, false⟩
  else none

/-- Value produced by the JavaScript bracket lookup
`this.qualityLevels[quality]`: `undefined` (falsy) when the key is
neither an own property nor inherited, an own parameter bundle, or a
member inherited from `Object.prototype` (always truthy: a function, or
for `__proto__` the prototype object itself). -/
inductive LookupResult where
  | undefined
  | ownSettings (s : QualitySettings)
  | inherited (name : String)
deriving DecidableEq, Repr

/-- Keys a plain object literal inherits from `Object.prototype`. -/
def objectProtoKeys : List String :=
  ["constructor", "hasOwnProperty", "isPrototypeOf", "propertyIsEnumerable",
   "toLocaleString", "toString", "valueOf", "__proto__",
   "__defineGetter__", "__defineSetter__", "__lookupGetter__", "__lookupSetter__"]

/-- The bracket lookup `this.qualityLevels[quality]`: own properties
first, then the `Object.prototype` chain. -/
def qualityLevelsLookup (q : String) : LookupResult :=
  match qualityLevels q with
  | some s => LookupResult.ownSettings s
  | none =>
      if q ∈ objectProtoKeys then LookupResult.inherited q else LookupResult.undefined

/-- Mutable fields of the PerformanceMonitor relevant to metrics and
quality scaling. -/
structure PMState where
  fps : Int
  frameTime : Rat
  frames : Nat
  lastFpsUpdate : Rat
  lastTime : Rat
  currentQuality : String
  autoQualityAdjust : Bool
  frameTimes : List Rat
deriving DecidableEq, Repr

/-- Events the PerformanceMonitor publishes on the bus.  The
quality-changed payload carries `settings: this.qualityLevels[quality]`,
which is a parameter bundle for an own key but an inherited
`Object.prototype` member when the guard was passed by a prototype
key. -/
inductive PMEvent where
  | qualityChanged (quality : String) (settings : QualitySettings)
  | qualityChangedProto (quality : String) (member : String)
  | fpsUpdate (fps : Int)
deriving DecidableEq, Repr

/-- Result of a PerformanceMonitor operation: the new state, the bus
events emitted, and the console output. -/
structure PMOut where
  state : PMState
  emitted : List PMEvent
  logs : List String
deriving DecidableEq, Repr

/-- An operation that changes nothing and outputs nothing. -/
def noOut (s : PMState) : PMOut := ⟨s, [], []⟩

/-- The `targetFPS` threshold of the constructor. -/
def targetFPS : Int := 60

/-- The `minAcceptableFPS` threshold of the constructor. -/
def minAcceptableFPS : Int := 30

/-- The `maxFrameTimeSamples` bound of the constructor. -/
def maxFrameTimeSamples : Nat := 60

/-- The `fpsUpdateInterval` (milliseconds) of the constructor. -/
def fpsUpdateInterval : Rat := 1000

/-- JavaScript `Math.round`: round half toward positive infinity. -/
def jsRound (q : Rat) : Int := ⌊q + 1/2⌋

/-- Models `getAverageFrameTime()`: 0 on an empty window, else the mean
of the sample window. -/
def getAverageFrameTime (frameTimes : List Rat) : Rat :=
  if frameTimes.length = 0 then 0
  else frameTimes.sum / frameTimes.length

/-- Models `setQuality(quality)`: the guard is the truthiness test
`!this.qualityLevels[quality]` on the bracket lookup, so only an
`undefined` result warns and returns; any truthy lookup — an own bundle
or an `Object.prototype` member — stores the key and emits the
quality-changed event carrying the looked-up value. -/
def setQuality (s : PMState) (quality : String) : PMOut :=
  match qualityLevelsLookup quality with
  | LookupResult.undefined => ⟨s, [], ["Invalid quality level: " ++ quality]⟩
  | LookupResult.ownSettings settings =>
      ⟨{ s with currentQuality := quality },
       [PMEvent.qualityChanged quality settings], []⟩
  | LookupResult.inherited name =>
      ⟨{ s with currentQuality := quality },
       [PMEvent.qualityChangedProto quality name], []⟩

/-- Models `adjustQuality()`: two successive `if` blocks of the source;
the downgrade block runs when `fps < minAcceptableFPS` and the average
frame time exceeds 33 ms, the upgrade block when `fps >= targetFPS` and
the average frame time is below 16 ms; the second block reads the
quality possibly updated by the first. -/
def adjustQuality (s : PMState) : PMOut :=
  let avgFrameTime := getAverageFrameTime s.frameTimes
  let currentFPS := s.fps
  let r1 :=
    if currentFPS < minAcceptableFPS ∧ avgFrameTime > 33 then
      if s.currentQuality = "HIGH" then
        let r := setQuality s "MEDIUM"
        ⟨r.state, r.emitted, r.logs ++ ["Quality downgraded to MEDIUM"]⟩
      else if s.currentQuality = "MEDIUM" then
        let r := setQuality s "LOW"
        ⟨r.state, r.emitted, r.logs ++ ["Quality downgraded to LOW"]⟩
      else noOut s
    else noOut s
  if currentFPS ≥ targetFPS ∧ avgFrameTime < 16 then
    if r1.state.currentQuality = "LOW" then
      let r := setQuality r1.state "MEDIUM"
      ⟨r.state, r1.emitted ++ r.emitted, r1.logs ++ r.logs ++ ["Quality upgraded to MEDIUM"]⟩
    else if r1.state.currentQuality = "MEDIUM" then
      let r := setQuality r1.state "HIGH"
      ⟨r.state, r1.emitted ++ r.emitted, r1.logs ++ r.logs ++ ["Quality upgraded to HIGH"]⟩
    else r1
  else r1

/-- Models `setAutoQualityAdjust(enabled)`. -/
def setAutoQualityAdjust (s : PMState) (enabled : Bool) : PMState :=
  { s with autoQualityAdjust := enabled }

/-- Models `end()`: computes the frame time from the `begin()` instant,
pushes it into the bounded sample window, and — once the evaluation
interval has elapsed — recomputes the fps, resets the frame counter,
runs `adjustQuality` when automatic adjustment is enabled, and emits the
fps event. -/
def endFrame (s : PMState) (beginTime currentTime : Rat) : PMOut :=
  let frameTime := currentTime - beginTime
  let frames := s.frames + 1
  let ft0 := s.frameTimes ++ [frameTime]
  let ft := if ft0.length > maxFrameTimeSamples then ft0.tail else ft0
  let s1 := { s with frameTime := frameTime, frames := frames, frameTimes := ft }
  if currentTime - s.lastFpsUpdate ≥ fpsUpdateInterval then
    let fps := jsRound ((frames : Rat) * 1000 / (currentTime - s.lastFpsUpdate))
    let s2 := { s1 with fps := fps, frames := 0, lastFpsUpdate := currentTime }
    let r := if s2.autoQualityAdjust then adjustQuality s2 else noOut s2
    ⟨{ r.state with lastTime := currentTime },
     r.emitted ++ [PMEvent.fpsUpdate fps], r.logs⟩
  else
    ⟨{ s1 with lastTime := currentTime }, [], []⟩

/-- Runs `begin()`/`end()` frame pairs in sequence, keeping only the
state. -/
def runFrames (s : PMState) : List (Rat × Rat) → PMState
  | [] => s
  | (b, c) :: rest => runFrames (endFrame s b c).state rest

/-- Spec-level single step down the quality ladder (no-op at the bottom
and on a level outside the ladder). -/
def stepDown (q : String) : String :=
  if q = "HIGH" then "MEDIUM" else if q = "MEDIUM" then "LOW" else q

/-- Spec-level single step up the quality ladder (no-op at the top and
on a level outside the ladder). -/
def stepUp (q : String) : String :=
  if q = "LOW" then "MEDIUM" else if q = "MEDIUM" then "HIGH" else q

/-- Position of a recognized level on the ladder LOW < MEDIUM < HIGH. -/
def qualityRank (q : String) : Int :=
  if q = "LOW" then 0 else if q = "MEDIUM" then 1 else 2

/-- A state at quality HIGH with fps 20 and a frame-time window
averaging 34 ms, for the C1 witness. -/
def slowStateC1 : PMState := ⟨20, 0, 0, 0, 0, "HIGH", true, [34, 34]⟩

/-- A state at quality HIGH with qualifying poor performance, for the C5
witness. -/
def slowStateC5 : PMState := ⟨20, 0, 0, 0, 0, "HIGH", true, [34, 34]⟩

/-- An idle state at quality HIGH, for the C8 failing-input
evaluation. -/
def idleStateC8 : PMState := ⟨60, 0, 0, 0, 0, "HIGH", true, []⟩

/-- An idle state already at quality HIGH, for the C10 witness. -/
def idleStateC10 : PMState := ⟨60, 0, 0, 0, 0, "HIGH", true, []⟩

/-- A state with automatic adjustment about to be disabled before a
sequence of slow frames, for the C9 witness. -/
def busyStateC9 : PMState := ⟨60, 0, 0, 0, 0, "HIGH", true, []⟩

lemma runHandlers_fst (beh : Nat → Nat → Option String) (p : String) (d : Nat)
    (hs : List Nat) : (runHandlers beh p d hs).1 = hs := by
  induction hs with
  | nil => rfl
  | cons h t ih =>
      simp only [runHandlers]
      cases beh h d <;> simp [ih]

lemma runHandlers_snd (beh : Nat → Nat → Option String) (p : String) (d : Nat)
    (hs : List Nat) :
    (runHandlers beh p d hs).2 =
      hs.filterMap (fun h => (beh h d).map (fun err => p ++ err)) := by
  induction hs with
  | nil => rfl
  | cons h t ih =>
      simp only [runHandlers, List.filterMap_cons]
      cases beh h d <;> simp [ih]

lemma emit_trace (b : EventBus) (beh : Nat → Nat → Option String) (e : String) (d : Nat) :
    (b.emit beh e d).trace = b.listeners e ++ b.onceListeners e := by
  simp [EventBus.emit, runHandlers_fst]

lemma emit_bus_listeners (b : EventBus) (beh : Nat → Nat → Option String) (e : String)
    (d : Nat) (x : String) : (b.emit beh e d).bus.listeners x = b.listeners x := rfl

lemma emit_bus_once (b : EventBus) (beh : Nat → Nat → Option String) (e : String)
    (d : Nat) (x : String) :
    (b.emit beh e d).bus.onceListeners x = if x = e then [] else b.onceListeners x := rfl

lemma once_listeners (b : EventBus) (e : String) (h : Nat) (x : String) :
    (b.once e h).listeners x = b.listeners x := rfl

lemma once_once (b : EventBus) (e : String) (h : Nat) (x : String) :
    (b.once e h).onceListeners x =
      if x = e then addUnique (b.onceListeners x) h else b.onceListeners x := rfl

lemma on_listeners (b : EventBus) (e : String) (h : Nat) (x : String) :
    (b.on e h).listeners x =
      if x = e then addUnique (b.listeners x) h else b.listeners x := rfl

lemma on_once (b : EventBus) (e : String) (h : Nat) (x : String) :
    (b.on e h).onceListeners x = b.onceListeners x := rfl

lemma off_listeners (b : EventBus) (e : String) (h : Nat) (x : String) :
    (b.off e h).listeners x =
      if x = e then (b.listeners x).filter (fun y => y != h) else b.listeners x := rfl

lemma off_once (b : EventBus) (e : String) (h : Nat) (x : String) :
    (b.off e h).onceListeners x =
      if x = e then (b.onceListeners x).filter (fun y => y != h) else b.onceListeners x := rfl

lemma not_mem_filter_ne (l : List Nat) (h : Nat) : h ∉ l.filter (fun y => y != h) := by
  intro hmem
  have := List.of_mem_filter hmem
  simp at this

lemma not_mem_addUnique (l : List Nat) (h h2 : Nat) (hne : h2 ≠ h) (hl : h ∉ l) :
    h ∉ addUnique l h2 := by
  rw [addUnique]
  split
  · exact hl
  · intro hmem
    rcases List.mem_append.mp hmem with hm | hm
    · exact hl hm
    · simp at hm
      exact hne.symm hm

/-- C2: for every emit and every behaviour assignment, the invocation
trace is exactly all persistent listeners followed by all fire-once
listeners of the event — independent of which handlers raise errors, so
an error in one handler never prevents the remaining ones from running —
and every raised error is caught and appears in the log; emit itself is
a total function, so no error propagates to its caller. -/
theorem emit_error_isolation (beh : Nat → Nat → Option String) (b : EventBus)
    (e : String) (d : Nat) :
    (b.emit beh e d).trace = b.listeners e ++ b.onceListeners e ∧
    (b.emit beh e d).logs =
      (b.listeners e).filterMap
        (fun h => (beh h d).map (fun err => "Error in event listener for " ++ e ++ ": " ++ err))
      ++ (b.onceListeners e).filterMap
        (fun h => (beh h d).map (fun err => "Error in once listener for " ++ e ++ ": " ++ err)) := by
  constructor
  · exact emit_trace b beh e d
  · simp [EventBus.emit, runHandlers_snd, String.append_assoc]

/-- C3: a handler freshly registered through `once` is invoked on the
first emission of its event and removed by it: the first emit invokes it
exactly once and the second emit, issued next, does not invoke it at
all. -/
theorem once_fires_exactly_once (b : EventBus) (e : String) (h : Nat)
    (beh : Nat → Nat → Option String) (d1 d2 : Nat)
    (h1 : h ∉ b.listeners e) (h2 : h ∉ b.onceListeners e) :
    ((b.once e h).emit beh e d1).trace.count h = 1 ∧
    (((b.once e h).emit beh e d1).bus.emit beh e d2).trace.count h = 0 := by
  constructor
  · rw [emit_trace, once_listeners, once_once, if_pos rfl]
    rw [addUnique, if_neg h2]
    rw [List.count_append, List.count_append]
    rw [List.count_eq_zero.mpr h1, List.count_eq_zero.mpr h2]
    simp
  · rw [emit_trace, emit_bus_listeners, emit_bus_once, if_pos rfl, once_listeners]
    simp [List.count_eq_zero.mpr h1]

/-- C3 witness: concrete instantiation on the empty bus. -/
theorem once_fires_exactly_once_witness :
    ((EventBus.empty.once "evt" 5).emit (fun _ _ => none) "evt" 0).trace.count 5 = 1 ∧
    (((EventBus.empty.once "evt" 5).emit (fun _ _ => none) "evt" 0).bus.emit
        (fun _ _ => none) "evt" 1).trace.count 5 = 0 :=
  once_fires_exactly_once EventBus.empty "evt" 5 (fun _ _ => none) 0 1
    (by simp [EventBus.empty]) (by simp [EventBus.empty])

/-- A handler absent from both registries of an event stays absent, and
is never invoked for that event, across any call sequence that does not
re-register it for that event. -/
lemma absent_stays_absent (beh : Nat → Nat → Option String) (e : String) (h : Nat)
    (ops : List BusOp) :
    ∀ b : EventBus, h ∉ b.listeners e → h ∉ b.onceListeners e →
    (∀ op ∈ ops, ¬ registersFor e h op) →
    h ∉ (execOps beh b ops).1.listeners e ∧
    h ∉ (execOps beh b ops).1.onceListeners e ∧
    (e, h) ∉ (execOps beh b ops).2.1 := by
  induction ops with
  | nil =>
      intro b hb1 hb2 _
      exact ⟨hb1, hb2, by simp [execOps]⟩
  | cons op ops ih =>
      intro b hb1 hb2 hops
      have hop : ¬ registersFor e h op := hops op (List.mem_cons_self op ops)
      have hrest : ∀ o ∈ ops, ¬ registersFor e h o :=
        fun o ho => hops o (List.mem_cons_of_mem op ho)
      have hstep : h ∉ (execOp beh b op).1.listeners e ∧
          h ∉ (execOp beh b op).1.onceListeners e ∧
          (e, h) ∉ (execOp beh b op).2.1 := by
        cases op with
        | sub e2 h2 =>
            refine ⟨?_, hb2, by simp [execOp]⟩
            show h ∉ (b.on e2 h2).listeners e
            rw [on_listeners]
            by_cases he : e = e2
            · rw [if_pos he]
              have hne : h2 ≠ h := fun hh => hop ⟨he.symm, hh⟩
              exact not_mem_addUnique _ h h2 hne hb1
            · rw [if_neg he]
              exact hb1
        | subOnce e2 h2 =>
            refine ⟨hb1, ?_, by simp [execOp]⟩
            show h ∉ (b.once e2 h2).onceListeners e
            rw [once_once]
            by_cases he : e = e2
            · rw [if_pos he]
              have hne : h2 ≠ h := fun hh => hop ⟨he.symm, hh⟩
              exact not_mem_addUnique _ h h2 hne hb2
            · rw [if_neg he]
              exact hb2
        | unsub e2 h2 =>
            refine ⟨?_, ?_, by simp [execOp]⟩
            · show h ∉ (b.off e2 h2).listeners e
              rw [off_listeners]
              by_cases he : e = e2
              · rw [if_pos he]
                exact fun hm => hb1 (List.mem_of_mem_filter hm)
              · rw [if_neg he]
                exact hb1
            · show h ∉ (b.off e2 h2).onceListeners e
              rw [off_once]
              by_cases he : e = e2
              · rw [if_pos he]
                exact fun hm => hb2 (List.mem_of_mem_filter hm)
              · rw [if_neg he]
                exact hb2
        | pub e2 d =>
            refine ⟨hb1, ?_, ?_⟩
            · show h ∉ (if e = e2 then [] else b.onceListeners e)
              by_cases he : e = e2
              · rw [if_pos he]
                simp
              · rw [if_neg he]
                exact hb2
            · show (e, h) ∉ (b.emit beh e2 d).trace.map (fun x => (e2, x))
              simp only [List.mem_map]
              rintro ⟨x, hx, hxy⟩
              injection hxy with he2 hxh
              subst he2
              subst hxh
              rw [emit_trace] at hx
              rcases List.mem_append.mp hx with hm | hm
              · exact hb1 hm
              · exact hb2 hm
        | clearEvt e2 =>
            refine ⟨?_, ?_, by simp [execOp]⟩
            · show h ∉ (if e = e2 then [] else b.listeners e)
              by_cases he : e = e2
              · rw [if_pos he]
                simp
              · rw [if_neg he]
                exact hb1
            · show h ∉ (if e = e2 then [] else b.onceListeners e)
              by_cases he : e = e2
              · rw [if_pos he]
                simp
              · rw [if_neg he]
                exact hb2
        | clearEvery =>
            exact ⟨by simp [execOp, EventBus.clearAll, EventBus.empty],
                   by simp [execOp, EventBus.clearAll, EventBus.empty],
                   by simp [execOp]⟩
      have hrec := ih (execOp beh b op).1 hstep.1 hstep.2.1 hrest
      refine ⟨?_, ?_, ?_⟩
      · show h ∉ (execOps beh (execOp beh b op).1 ops).1.listeners e
        exact hrec.1
      · show h ∉ (execOps beh (execOp beh b op).1 ops).1.onceListeners e
        exact hrec.2.1
      · show (e, h) ∉ (execOp beh b op).2.1 ++ (execOps beh (execOp beh b op).1 ops).2.1
        simp only [List.mem_append]
        rintro (hm | hm)
        · exact hstep.2.2 hm
        · exact hrec.2.2 hm

/-- C4: `off` (the body of the unsubscribe handle returned by `on`)
removes the handler from both the persistent and the fire-once registry
of the event, is a no-op on every registry entry when the handler was
absent (and, being a total function, never throws), and afterwards no
call sequence that does not re-register the handler for that event ever
invokes it for that event. -/
theorem unsubscribe_permanent (beh : Nat → Nat → Option String) (b : EventBus)
    (e : String) (h : Nat) (ops : List BusOp)
    (hops : ∀ op ∈ ops, ¬ registersFor e h op) :
    h ∉ (b.off e h).listeners e ∧
    h ∉ (b.off e h).onceListeners e ∧
    (h ∉ b.listeners e → h ∉ b.onceListeners e →
      ∀ x, (b.off e h).listeners x = b.listeners x ∧
           (b.off e h).onceListeners x = b.onceListeners x) ∧
    (e, h) ∉ (execOps beh (b.off e h) ops).2.1 := by
  have habs1 : h ∉ (b.off e h).listeners e := by
    rw [off_listeners, if_pos rfl]
    exact not_mem_filter_ne _ h
  have habs2 : h ∉ (b.off e h).onceListeners e := by
    rw [off_once, if_pos rfl]
    exact not_mem_filter_ne _ h
  refine ⟨habs1, habs2, ?_, ?_⟩
  · intro h1 h2 x
    constructor
    · rw [off_listeners]
      by_cases hx : x = e
      · subst hx
        rw [if_pos rfl]
        apply List.filter_eq_self.mpr
        intro a ha
        simp only [bne_iff_ne, ne_eq, decide_eq_true_eq]
        exact fun hah => h1 (hah ▸ ha)
      · rw [if_neg hx]
    · rw [off_once]
      by_cases hx : x = e
      · subst hx
        rw [if_pos rfl]
        apply List.filter_eq_self.mpr
        intro a ha
        simp only [bne_iff_ne, ne_eq, decide_eq_true_eq]
        exact fun hah => h2 (hah ▸ ha)
      · rw [if_neg hx]
  · exact (absent_stays_absent beh e h ops (b.off e h) habs1 habs2 hops).2.2

/-- C4 witness: after subscribing handler 4 persistently and handler 4
as fire-once and then unsubscribing it, an emit and further calls never
invoke it. -/
theorem unsubscribe_permanent_witness :
    (∀ op ∈ [BusOp.pub "evt" 0, BusOp.sub "evt" 9, BusOp.pub "evt" 1],
      ¬ registersFor "evt" 4 op) ∧
    4 ∉ (((EventBus.empty.on "evt" 4).once "evt" 4).off "evt" 4).listeners "evt" ∧
    ("evt", 4) ∉ (execOps (fun _ _ => none)
        ((((EventBus.empty.on "evt" 4).once "evt" 4)).off "evt" 4)
        [BusOp.pub "evt" 0, BusOp.sub "evt" 9, BusOp.pub "evt" 1]).2.1 := by
  have hops : ∀ op ∈ [BusOp.pub "evt" 0, BusOp.sub "evt" 9, BusOp.pub "evt" 1],
      ¬ registersFor "evt" 4 op := by
    intro op hop
    fin_cases hop
    · exact fun f => f
    · exact fun f => by
        have := f.2
        omega
    · exact fun f => f
  have hmain := unsubscribe_permanent (fun _ _ => none)
      ((EventBus.empty.on "evt" 4).once "evt" 4) "evt" 4
      [BusOp.pub "evt" 0, BusOp.sub "evt" 9, BusOp.pub "evt" 1] hops
  exact ⟨hops, hmain.1, hmain.2.2.2⟩

/-- C6 counterexample: the registries are JavaScript `Set`s, so the
second registration of the same callback is a no-op; a single emit then
invokes the handler once, not twice as the claim states. -/
theorem on_duplicate_counterexample :
    (busWithDuplicate.emit (fun _ _ => none) "evt" 0).trace.count 7 = 1 ∧
    ¬ (busWithDuplicate.emit (fun _ _ => none) "evt" 0).trace.count 7 = 2 := by
  constructor
  · rfl
  · intro hcontra
    have h1 : (busWithDuplicate.emit (fun _ _ => none) "evt" 0).trace.count 7 = 1 := rfl
    rw [h1] at hcontra
    exact absurd hcontra (by decide)

/-- C6 amended: registering the same handler twice under the same event
name results in a single registration — the second `on` call leaves
every registry entry unchanged — a single emit then invokes the handler
exactly once, and the unsubscribe handle (off) removes that single
registration. -/
theorem on_duplicate_single_registration (b : EventBus) (e : String) (h : Nat)
    (beh : Nat → Nat → Option String) (d : Nat)
    (h1 : h ∉ b.listeners e) (h2 : h ∉ b.onceListeners e) :
    (∀ x, ((b.on e h).on e h).listeners x = (b.on e h).listeners x) ∧
    (((b.on e h).on e h).emit beh e d).trace.count h = 1 ∧
    h ∉ (((b.on e h).on e h).off e h).listeners e := by
  have hmem : h ∈ (b.on e h).listeners e := by
    rw [on_listeners, if_pos rfl, addUnique, if_neg h1]
    simp
  refine ⟨?_, ?_, ?_⟩
  · intro x
    rw [on_listeners]
    by_cases hx : x = e
    · subst hx
      rw [if_pos rfl, addUnique, if_pos hmem]
    · rw [if_neg hx]
  · rw [emit_trace, List.count_append]
    have hls : ((b.on e h).on e h).listeners e = b.listeners e ++ [h] := by
      rw [on_listeners, if_pos rfl, addUnique, if_pos hmem,
          on_listeners, if_pos rfl, addUnique, if_neg h1]
    have hoc : ((b.on e h).on e h).onceListeners e = b.onceListeners e := rfl
    rw [hls, hoc, List.count_append, List.count_eq_zero.mpr h1,
        List.count_eq_zero.mpr h2]
    simp
  · rw [off_listeners, if_pos rfl]
    exact not_mem_filter_ne _ h

/-- C6 amended witness: concrete instantiation on the empty bus. -/
theorem on_duplicate_single_registration_witness :
    (∀ x, ((EventBus.empty.on "evt" 7).on "evt" 7).listeners x =
      (EventBus.empty.on "evt" 7).listeners x) ∧
    (((EventBus.empty.on "evt" 7).on "evt" 7).emit (fun _ _ => none) "evt" 0).trace.count 7 = 1 ∧
    7 ∉ ((((EventBus.empty.on "evt" 7).on "evt" 7)).off "evt" 7).listeners "evt" :=
  on_duplicate_single_registration EventBus.empty "evt" 7 (fun _ _ => none) 0
    (by simp [EventBus.empty]) (by simp [EventBus.empty])

lemma execOps_registry (beh : Nat → Nat → Option String) (e : String)
    (ops : List BusOp) :
    ∀ b : EventBus,
    ((execOps beh b ops).1.listeners e, (execOps beh b ops).1.onceListeners e) =
      ops.foldl (liveStep e) (b.listeners e, b.onceListeners e) := by
  induction ops with
  | nil => intro b; rfl
  | cons op ops ih =>
      intro b
      have hstep : ((execOp beh b op).1.listeners e, (execOp beh b op).1.onceListeners e) =
          liveStep e (b.listeners e, b.onceListeners e) op := by
        cases op with
        | sub e2 h =>
            show ((b.on e2 h).listeners e, (b.on e2 h).onceListeners e) = _
            rw [on_listeners, on_once, liveStep]
            by_cases he : e = e2
            · rw [if_pos he, if_pos he]
            · rw [if_neg he, if_neg he]
        | subOnce e2 h =>
            show ((b.once e2 h).listeners e, (b.once e2 h).onceListeners e) = _
            rw [once_listeners, once_once, liveStep]
            by_cases he : e = e2
            · rw [if_pos he, if_pos he]
            · rw [if_neg he, if_neg he]
        | unsub e2 h =>
            show ((b.off e2 h).listeners e, (b.off e2 h).onceListeners e) = _
            rw [off_listeners, off_once, liveStep]
            by_cases he : e = e2
            · rw [if_pos he, if_pos he, if_pos he]
            · rw [if_neg he, if_neg he, if_neg he]
        | pub e2 d =>
            show ((b.emit beh e2 d).bus.listeners e, (b.emit beh e2 d).bus.onceListeners e) = _
            rw [emit_bus_listeners, emit_bus_once, liveStep]
            by_cases he : e = e2
            · rw [if_pos he, if_pos he]
            · rw [if_neg he, if_neg he]
        | clearEvt e2 =>
            show ((if e = e2 then [] else b.listeners e),
                  (if e = e2 then [] else b.onceListeners e)) = _
            rw [liveStep]
            by_cases he : e = e2
            · rw [if_pos he, if_pos he, if_pos he]
            · rw [if_neg he, if_neg he, if_neg he]
        | clearEvery => rfl
      have hrec := ih (execOp beh b op).1
      show ((execOps beh (execOp beh b op).1 ops).1.listeners e,
            (execOps beh (execOp beh b op).1 ops).1.onceListeners e) =
        List.foldl (liveStep e) (liveStep e (b.listeners e, b.onceListeners e) op) ops
      rw [← hstep]
      exact hrec

/-- C7: after every call sequence starting from the empty bus,
`listenerCount` returns the number of live persistent registrations plus
the number of live fire-once registrations of the event, as read off the
call history; it is a pure observer of the bus state (a function of the
state, performing no update). -/
theorem listenerCount_live (beh : Nat → Nat → Option String) (ops : List BusOp)
    (e : String) :
    (execOps beh EventBus.empty ops).1.listenerCount e =
      (liveRegs e ops).1.length + (liveRegs e ops).2.length := by
  have hreg := execOps_registry beh e ops EventBus.empty
  rw [EventBus.listenerCount, liveRegs]
  have h1 : (execOps beh EventBus.empty ops).1.listeners e =
      (ops.foldl (liveStep e) (([] : List Nat), ([] : List Nat))).1 :=
    congrArg Prod.fst hreg
  have h2 : (execOps beh EventBus.empty ops).1.onceListeners e =
      (ops.foldl (liveStep e) (([] : List Nat), ([] : List Nat))).2 :=
    congrArg Prod.snd hreg
  rw [h1, h2]

lemma setQuality_state_HIGH (s : PMState) :
    (setQuality s "HIGH").state = { s with currentQuality := "HIGH" } := rfl

lemma setQuality_state_MEDIUM (s : PMState) :
    (setQuality s "MEDIUM").state = { s with currentQuality := "MEDIUM" } := rfl

lemma setQuality_state_LOW (s : PMState) :
    (setQuality s "LOW").state = { s with currentQuality := "LOW" } := rfl

lemma quality_thresholds_exclusive (s : PMState)
    (h1 : s.fps < minAcceptableFPS ∧ getAverageFrameTime s.frameTimes > 33) :
    ¬ (s.fps ≥ targetFPS ∧ getAverageFrameTime s.frameTimes < 16) := by
  intro h2
  have ha := h1.1
  have hb := h2.1
  rw [minAcceptableFPS] at ha
  rw [targetFPS] at hb
  omega

lemma adjustQuality_quality (s : PMState) :
    (adjustQuality s).state.currentQuality =
      if s.fps < minAcceptableFPS ∧ getAverageFrameTime s.frameTimes > 33 then
        stepDown s.currentQuality
      else if s.fps ≥ targetFPS ∧ getAverageFrameTime s.frameTimes < 16 then
        stepUp s.currentQuality
      else s.currentQuality := by
  by_cases h1 : s.fps < minAcceptableFPS ∧ getAverageFrameTime s.frameTimes > 33
  · have h2 := quality_thresholds_exclusive s h1
    rw [if_pos h1, adjustQuality]
    simp only [if_pos h1, if_neg h2]
    by_cases hH : s.currentQuality = "HIGH"
    · rw [if_pos hH, stepDown, if_pos hH]
      rfl
    · rw [if_neg hH]
      by_cases hM : s.currentQuality = "MEDIUM"
      · rw [if_pos hM, stepDown, if_neg hH, if_pos hM]
        rfl
      · rw [if_neg hM, stepDown, if_neg hH, if_neg hM]
        rfl
  · rw [if_neg h1, adjustQuality]
    simp only [if_neg h1]
    by_cases h2 : s.fps ≥ targetFPS ∧ getAverageFrameTime s.frameTimes < 16
    · rw [if_pos h2, if_pos h2]
      simp only [noOut]
      by_cases hL : s.currentQuality = "LOW"
      · rw [if_pos hL, stepUp, if_pos hL]
        rfl
      · rw [if_neg hL]
        by_cases hM : s.currentQuality = "MEDIUM"
        · rw [if_pos hM, stepUp, if_neg hL, if_pos hM]
          rfl
        · rw [if_neg hM, stepUp, if_neg hL, if_neg hM]
    · rw [if_neg h2, if_neg h2]
      rfl

/-- C1: on an evaluation tick with automatic adjustment enabled, the
quality moves exactly one step down when `fps < 30` and the average
frame time exceeds 33 ms (no-op at LOW), exactly one step up when
`fps >= 60` and the average frame time is below 16 ms (no-op at HIGH),
and is unchanged otherwise; the two guard conditions are mutually
exclusive, so the downgrade and upgrade blocks never both fire. -/
theorem adjustQuality_stepping (s : PMState) :
    (s.fps < minAcceptableFPS ∧ getAverageFrameTime s.frameTimes > 33 →
      (adjustQuality s).state.currentQuality = stepDown s.currentQuality) ∧
    (s.fps ≥ targetFPS ∧ getAverageFrameTime s.frameTimes < 16 →
      (adjustQuality s).state.currentQuality = stepUp s.currentQuality) ∧
    (¬ (s.fps < minAcceptableFPS ∧ getAverageFrameTime s.frameTimes > 33) →
     ¬ (s.fps ≥ targetFPS ∧ getAverageFrameTime s.frameTimes < 16) →
      (adjustQuality s).state.currentQuality = s.currentQuality) := by
  refine ⟨?_, ?_, ?_⟩
  · intro h1
    rw [adjustQuality_quality, if_pos h1]
  · intro h2
    have h1 : ¬ (s.fps < minAcceptableFPS ∧ getAverageFrameTime s.frameTimes > 33) := by
      intro h1
      exact quality_thresholds_exclusive s h1 h2
    rw [adjustQuality_quality, if_neg h1, if_pos h2]
  · intro h1 h2
    rw [adjustQuality_quality, if_neg h1, if_neg h2]

/-- C1 witness: fps 20 with a frame-time window averaging 34 ms steps
HIGH down to MEDIUM. -/
theorem adjustQuality_stepping_witness :
    (adjustQuality slowStateC1).state.currentQuality = "MEDIUM" := by
  have h := (adjustQuality_stepping slowStateC1).1
  have hc : slowStateC1.fps < minAcceptableFPS ∧
      getAverageFrameTime slowStateC1.frameTimes > 33 := by
    constructor
    · rw [minAcceptableFPS]
      decide
    · norm_num [getAverageFrameTime, slowStateC1]
  exact (h hc).trans rfl

/-- C5: a single evaluation of `adjustQuality` from a recognized level
moves the level at most one rank on the ladder LOW < MEDIUM < HIGH; in
particular from HIGH it can only stay at HIGH or move to MEDIUM, never
reach LOW. -/
theorem adjustQuality_single_step (s : PMState)
    (hq : s.currentQuality = "LOW" ∨ s.currentQuality = "MEDIUM" ∨
          s.currentQuality = "HIGH") :
    |qualityRank ((adjustQuality s).state.currentQuality) -
      qualityRank s.currentQuality| ≤ 1 ∧
    (s.currentQuality = "HIGH" →
      (adjustQuality s).state.currentQuality = "HIGH" ∨
      (adjustQuality s).state.currentQuality = "MEDIUM") := by
  rw [adjustQuality_quality]
  rcases hq with hq | hq | hq <;> rw [hq] <;> split_ifs <;>
    exact ⟨by decide, by decide⟩

/-- C5 witness: from HIGH the level lands at most one rank away and
never directly on LOW. -/
theorem adjustQuality_single_step_witness :
    |qualityRank ((adjustQuality slowStateC5).state.currentQuality) -
      qualityRank slowStateC5.currentQuality| ≤ 1 ∧
    (slowStateC5.currentQuality = "HIGH" →
      (adjustQuality slowStateC5).state.currentQuality = "HIGH" ∨
      (adjustQuality slowStateC5).state.currentQuality = "MEDIUM") :=
  adjustQuality_single_step slowStateC5 (Or.inr (Or.inr rfl))

/-- C8: evaluation of the code at the failing input `constructor`, an
unrecognized level on which the claim requires a logged diagnostic and a
complete no-op.  The guard `!this.qualityLevels[quality]` consults the
`Object.prototype` chain, where `constructor` is truthy, so the code
logs nothing, overwrites the active quality level with the unrecognized
string and emits the quality-changed event carrying the inherited
prototype member — while a genuinely absent key such as `ULTRA` still
takes the claimed warn-and-return path. -/
theorem setQuality_proto_key_bug :
    (setQuality idleStateC8 "constructor").state.currentQuality = "constructor" ∧
    (setQuality idleStateC8 "constructor").emitted =
      [PMEvent.qualityChangedProto "constructor" "constructor"] ∧
    (setQuality idleStateC8 "constructor").logs = [] ∧
    (setQuality idleStateC8 "ULTRA").state = idleStateC8 ∧
    (setQuality idleStateC8 "ULTRA").emitted = [] ∧
    (setQuality idleStateC8 "ULTRA").logs = ["Invalid quality level: " ++ "ULTRA"] := by
  exact ⟨rfl, rfl, rfl, rfl, rfl, rfl⟩

/-- C10: `setQuality` on a recognized level always stores the level and
emits the quality-changed event carrying the level and its parameter
bundle, with no comparison against the active level, so the event fires
even when the level is unchanged. -/
theorem setQuality_always_emits (s : PMState) (q : String)
    (settings : QualitySettings) (h : qualityLevels q = some settings) :
    (setQuality s q).state = { s with currentQuality := q } ∧
    (setQuality s q).emitted = [PMEvent.qualityChanged q settings] := by
  rw [setQuality, qualityLevelsLookup, h]
  exact ⟨rfl, rfl⟩

/-- C10 witness: setting HIGH while already at HIGH leaves the state
identical yet still emits the quality-changed event. -/
theorem setQuality_always_emits_witness :
    (setQuality idleStateC10 "HIGH").state = idleStateC10 ∧
    (setQuality idleStateC10 "HIGH").emitted =
      [PMEvent.qualityChanged "HIGH" ⟨2, true, 1000, true⟩] :=
  setQuality_always_emits idleStateC10 "HIGH" ⟨2, true, 1000, true⟩ (by decide)

lemma endFrame_auto_off (s : PMState) (b c : Rat) (h : s.autoQualityAdjust = false) :
    (endFrame s b c).state.currentQuality = s.currentQuality ∧
    (endFrame s b c).state.autoQualityAdjust = false := by
  rw [endFrame]
  split
  · rw [h]
    exact ⟨rfl, rfl⟩
  · exact ⟨rfl, h⟩

lemma runFrames_auto_off (frames : List (Rat × Rat)) :
    ∀ s : PMState, s.autoQualityAdjust = false →
    (runFrames s frames).currentQuality = s.currentQuality ∧
    (runFrames s frames).autoQualityAdjust = false := by
  induction frames with
  | nil => exact fun s h => ⟨rfl, h⟩
  | cons p rest ih =>
      intro s h
      obtain ⟨b, c⟩ := p
      have hf := endFrame_auto_off s b c h
      have hrec := ih (endFrame s b c).state hf.2
      exact ⟨hrec.1.trans hf.1, hrec.2⟩

lemma endFrame_tick_emits (s : PMState) (b c : Rat)
    (hauto : s.autoQualityAdjust = false)
    (hc : c - s.lastFpsUpdate ≥ fpsUpdateInterval) :
    (endFrame s b c).emitted =
      [PMEvent.fpsUpdate
        (jsRound (((s.frames + 1 : Nat) : Rat) * 1000 / (c - s.lastFpsUpdate)))] ∧
    (endFrame s b c).state.fps =
      jsRound (((s.frames + 1 : Nat) : Rat) * 1000 / (c - s.lastFpsUpdate)) := by
  rw [endFrame, if_pos hc]
  dsimp only
  rw [hauto]
  dsimp only [noOut]
  exact ⟨rfl, rfl⟩

/-- C9: after `setAutoQualityAdjust(false)` the quality level is frozen
across every subsequent sequence of frames, however their timing would
otherwise qualify for a transition; an evaluation tick (a frame whose
end instant is at least the update interval past the last fps update)
still recomputes the fps from the frame counter and elapsed time and
still emits exactly the per-second fps event. -/
theorem setAutoAdjust_false_freezes (s : PMState) (frames : List (Rat × Rat))
    (b c : Rat) (hc : c - s.lastFpsUpdate ≥ fpsUpdateInterval) :
    (runFrames (setAutoQualityAdjust s false) frames).currentQuality =
      s.currentQuality ∧
    (endFrame (setAutoQualityAdjust s false) b c).emitted =
      [PMEvent.fpsUpdate
        (jsRound (((s.frames + 1 : Nat) : Rat) * 1000 / (c - s.lastFpsUpdate)))] ∧
    (endFrame (setAutoQualityAdjust s false) b c).state.fps =
      jsRound (((s.frames + 1 : Nat) : Rat) * 1000 / (c - s.lastFpsUpdate)) := by
  have htick := endFrame_tick_emits (setAutoQualityAdjust s false) b c rfl hc
  exact ⟨(runFrames_auto_off frames (setAutoQualityAdjust s false) rfl).1,
         htick.1, htick.2⟩

/-- C9 witness: with adjustment disabled, a slow frame sequence leaves
the level at HIGH while the evaluation tick still emits the recomputed
fps. -/
theorem setAutoAdjust_false_freezes_witness :
    (runFrames (setAutoQualityAdjust busyStateC9 false)
        [(0, 1000), (1000, 2040)]).currentQuality = busyStateC9.currentQuality ∧
    (endFrame (setAutoQualityAdjust busyStateC9 false) 0 1000).emitted =
      [PMEvent.fpsUpdate
        (jsRound (((busyStateC9.frames + 1 : Nat) : Rat) * 1000 /
          (1000 - busyStateC9.lastFpsUpdate)))] ∧
    (endFrame (setAutoQualityAdjust busyStateC9 false) 0 1000).state.fps =
      jsRound (((busyStateC9.frames + 1 : Nat) : Rat) * 1000 /
        (1000 - busyStateC9.lastFpsUpdate)) :=
  setAutoAdjust_false_freezes busyStateC9 [(0, 1000), (1000, 2040)] 0 1000
    (by norm_num [busyStateC9, fpsUpdateInterval])
